import Mathlib

/-!
Verification development for the Crypto Exchange Analyzer (pipe-and-filter
pipeline).  Dates are modelled as integers counting calendar days, so
"plus one day" is `+ 1` and the `datetime` arithmetic of `config.py`
becomes integer arithmetic.  Elapsed times and throughput metrics are
modelled as rationals.  Fallible operations return `Except String`,
mirroring Python exceptions carrying a message.
-/

namespace CryptoExchange

/-! ## Configuration (from `config.py`)

`config.py` computes, at process startup, `START_DATE` as
`datetime.now() - timedelta(days=HISTORICAL_YEARS * 365)` and `END_DATE`
as `datetime.now()`.  We expose the current day as the parameter `now`;
a year of the lookback window is 365 days, exactly as in the source. -/

def MAX_CRYPTOCURRENCIES : Nat := 100

def HISTORICAL_YEARS : Nat := 10

def START_DATE (now : Int) : Int := now - HISTORICAL_YEARS * 365

def END_DATE (now : Int) : Int := now

/-- The configured global window and limits, as an explicit value. -/
structure Config where
  startDate : Int
  endDate : Int
  maxCount : Nat
deriving Repr, DecidableEq

/-- The configuration derived at startup on day `now`. -/
def startupConfig (now : Int) : Config :=
  { startDate := START_DATE now
    endDate := END_DATE now
    maxCount := MAX_CRYPTOCURRENCIES }

/-! ## Data model -/

/-- One row of a symbol's Historical Series: a calendar day together with
its price, volume and market-cap figures. -/
structure HistRow where
  date : Int
  price : Int
  volume : Int
  marketCap : Int
deriving Repr, DecidableEq

/-- Stored historical state: for each symbol identifier, the list of rows
of its Historical Series (ascending by date on disk).  A missing or
malformed file is represented by the empty list. -/
def Storage : Type := String → List HistRow

/-- A Symbol Record as produced by the Symbol Filter. -/
structure SymbolRecord where
  id : String
  name : String
  rank : Int
deriving Repr, DecidableEq

/-- An Update-Need Record as produced by the Date-Check Filter. -/
structure UpdateNeed where
  symbol : String
  needs_update : Bool
  missingRange : Option (Int × Int)
deriving Repr, DecidableEq

/-- The dates appearing in a series, in storage order. -/
def datesOf (series : List HistRow) : List Int :=
  series.map (fun r => r.date)

/-- The latest stored date of a series (`none` for an empty series). -/
def latestDate (series : List HistRow) : Option Int :=
  (datesOf series).max?

/-- Replace one symbol's series in storage, leaving every other symbol's
series untouched. -/
def updateStore (store : Storage) (sym : String) (series : List HistRow) :
    Storage :=
  fun s => if s = sym then series else store s

/-! ## Symbol Filter

Modelled from the spec: the module `filters/symbol_filter.py` is imported
by `main.py` but absent from the sources, so `SymbolFilter.process` is
reconstructed from §4.1 of the specification: request the ranked listing
(capped at the configured maximum), fail with `DataUnavailableError` when
the API call fails (`none`) or returns an empty set, validate that each
entry has a non-empty identifier and a numeric rank, and drop invalid
entries without aborting. -/

/-- A raw entry of the ranked-listing API response; `rank = none` stands
for a missing or non-numeric rank field. -/
structure RawEntry where
  id : String
  name : String
  rank : Option Int
deriving Repr, DecidableEq

/-- Modelled from the spec: an entry is valid when its identifier is
non-empty and its rank is numeric (present). -/
def validEntry (e : RawEntry) : Bool :=
  decide (e.id ≠ "") && e.rank.isSome

/-- Convert a (valid) raw entry into a Symbol Record. -/
def toSymbolRecord (e : RawEntry) : SymbolRecord :=
  { id := e.id, name := e.name, rank := e.rank.getD 0 }

/-- Modelled from the spec: `SymbolFilter.process` (§4.1).  `apiResp = none`
stands for a failed API call. -/
def symbolFilterProcess (maxCount : Nat) (apiResp : Option (List RawEntry)) :
    Except String (List SymbolRecord) :=
  match apiResp with
  | none => .error "DataUnavailableError"
  | some raw =>
      if raw.isEmpty then .error "DataUnavailableError"
      else .ok (((raw.take maxCount).filter validEntry).map toSymbolRecord)

/-! ## Date-Check Filter

Modelled from the spec: the module `filters/date_check_filter.py` is
imported by `main.py` but absent from the sources, so
`DateCheckFilter.process` is reconstructed from §4.2 of the specification:
load the stored series (no file, or malformed storage, gives the empty
series); an empty series needs the full configured window; otherwise
compare the latest stored date to the configured end date, needing
`[latest + 1, end]` when the latest date is strictly earlier and nothing
otherwise. -/

/-- Modelled from the spec: the per-symbol decision of the Date-Check
Filter (§4.2, steps 1–4). -/
def checkSymbol (cfg : Config) (store : Storage) (sym : String) : UpdateNeed :=
  match latestDate (store sym) with
  | none => { symbol := sym, needs_update := true
              missingRange := some (cfg.startDate, cfg.endDate) }
  | some last =>
      if last < cfg.endDate then
        { symbol := sym, needs_update := true
          missingRange := some (last + 1, cfg.endDate) }
      else
        { symbol := sym, needs_update := false, missingRange := none }

/-- Modelled from the spec: `DateCheckFilter.process`, one Update-Need
Record per input symbol, order preserved (§4.2). -/
def dateCheckProcess (cfg : Config) (store : Storage)
    (syms : List SymbolRecord) : List UpdateNeed :=
  syms.map (fun s => checkSymbol cfg store s.id)

/-- A symbol is complete when its stored series' latest date reaches the
configured end date. -/
def seriesComplete (cfg : Config) (store : Storage) (sym : String) : Bool :=
  match latestDate (store sym) with
  | some d => decide (cfg.endDate ≤ d)
  | none => false

/-! ## Data-Fill Filter

Modelled from the spec: the module `filters/data_fill_filter.py` is
imported by `main.py` but absent from the sources, so
`DataFillFilter.process` is reconstructed from §4.3 of the specification:
for each record with `needs_update = true`, fetch the missing range; on
success append the returned rows deduplicating by date and increment
`success_count`; on failure skip the symbol (its stored series is left
unchanged); `processed_count` increments for every record examined. -/

/-- The external historical-series fetch: symbol and date range to either
rows or an error message.  Timeouts and HTTP failures are `.error`. -/
def Fetch : Type := String → Int × Int → Except String (List HistRow)

/-- Modelled from the spec: append fetched rows to an existing series,
deduplicating by date — a row whose date is already present is not added
again (§4.3). -/
def appendDedup (old : List HistRow) (rows : List HistRow) : List HistRow :=
  rows.foldl (fun acc r => if r.date ∈ datesOf acc then acc else acc ++ [r]) old

/-- The running state of the Data-Fill Filter: the storage plus the two
tallies it reports. -/
structure FillState where
  store : Storage
  processed_count : Nat
  success_count : Nat

/-- Modelled from the spec: handling of a single Update-Need Record by the
Data-Fill Filter (§4.3). -/
def fillStep (fetch : Fetch) (st : FillState) (rec : UpdateNeed) : FillState :=
  match rec.needs_update, rec.missingRange with
  | true, some rng =>
      match fetch rec.symbol rng with
      | .ok rows =>
          { store := updateStore st.store rec.symbol
              (appendDedup (st.store rec.symbol) rows)
            processed_count := st.processed_count + 1
            success_count := st.success_count + 1 }
      | .error _ => { st with processed_count := st.processed_count + 1 }
  | true, none => { st with processed_count := st.processed_count + 1 }
  | false, _ => { st with processed_count := st.processed_count + 1 }

/-- Modelled from the spec: `DataFillFilter.process` over a batch of
Update-Need Records (§4.3). -/
def dataFillProcess (fetch : Fetch) (st : FillState)
    (recs : List UpdateNeed) : FillState :=
  recs.foldl (fillStep fetch) st

/-- Whether a record's symbol completes: it needs an update and the fetch
of its missing range succeeds. -/
def fetchOk (fetch : Fetch) (rec : UpdateNeed) : Bool :=
  rec.needs_update &&
    match rec.missingRange with
    | some rng =>
        match fetch rec.symbol rng with
        | .ok _ => true
        | .error _ => false
    | none => false

/-- One full Date-Check + Data-Fill pass over the given symbols, starting
from zeroed tallies. -/
def runOnce (cfg : Config) (fetch : Fetch) (store : Storage)
    (syms : List SymbolRecord) : FillState :=
  dataFillProcess fetch
    { store := store, processed_count := 0, success_count := 0 }
    (dateCheckProcess cfg store syms)

/-! ## Pipeline Orchestrator (from `main.py`) -/

/-- The counts dictionary returned by the Data-Fill Filter to the
orchestrator. -/
structure FillCounts where
  processed_count : Nat
  success_count : Nat
deriving Repr, DecidableEq

/-- The counts reported out of a final fill state. -/
def countsOf (st : FillState) : FillCounts :=
  { processed_count := st.processed_count, success_count := st.success_count }

/-- The performance-metrics dictionary of
`CryptoExchangeProcessor._calculate_performance_metrics`. -/
structure Metrics where
  total_seconds : ℚ
  cryptocurrencies_per_second : ℚ
  efficiency_score : ℚ
deriving Repr, DecidableEq

/-- `CryptoExchangeProcessor._calculate_performance_metrics` from
`main.py`: both divisions are guarded by an `elapsed_time > 0` check and
fall back to `0`. -/
def calculate_performance_metrics (elapsed_time : ℚ) (total_symbols : Nat) :
    Metrics :=
  { total_seconds := elapsed_time
    cryptocurrencies_per_second :=
      if elapsed_time > 0 then (total_symbols : ℚ) / elapsed_time else 0
    efficiency_score :=
      if elapsed_time > 0 then ((total_symbols : ℚ) / elapsed_time) * 1000
      else 0 }

/-- A Run Result, as assembled by `_create_success_result` /
`_create_error_result` in `main.py`. -/
inductive RunResult where
  | success (elapsed_time : ℚ) (total_symbols processed_count success_count : Nat)
      (performance_metrics : Metrics)
  | error (msg : String)
deriving Repr, DecidableEq

/-- The `status` field of a Run Result dictionary. -/
def statusOf (r : RunResult) : String :=
  match r with
  | .success _ _ _ _ _ => "success"
  | .error _ => "error"

/-- `CryptoExchangeProcessor.run_pipe_and_filter` from `main.py`: the three
filters run strictly in sequence inside one `try`, any exception is turned
into an error Run Result carrying its message, and on success the counts
and derived metrics are assembled.  Each filter is passed as an
`Except`-valued function; `elapsed` is the measured elapsed time. -/
def run_pipe_and_filter
    (symbolStage : Except String (List SymbolRecord))
    (dateCheckStage : List SymbolRecord → Except String (List UpdateNeed))
    (dataFillStage : List UpdateNeed → Except String FillCounts)
    (elapsed : ℚ) : RunResult :=
  match symbolStage with
  | .error e => .error e
  | .ok symbols =>
      match dateCheckStage symbols with
      | .error e => .error e
      | .ok date_info =>
          match dataFillStage date_info with
          | .error e => .error e
          | .ok result =>
              .success elapsed symbols.length result.processed_count
                result.success_count
                (calculate_performance_metrics elapsed symbols.length)

/-- The whole pipeline with the three concrete (modelled) filters plugged
in: the ranked-listing response feeds the Symbol Filter, the Date-Check and
Data-Fill Filters run over the given storage, and neither of the latter two
raises. -/
def pipelineRun (apiResp : Option (List RawEntry)) (fetch : Fetch)
    (cfg : Config) (store : Storage) (elapsed : ℚ) : RunResult :=
  run_pipe_and_filter (symbolFilterProcess cfg.maxCount apiResp)
    (fun syms => .ok (dateCheckProcess cfg store syms))
    (fun recs => .ok (countsOf (dataFillProcess fetch
      { store := store, processed_count := 0, success_count := 0 } recs)))
    elapsed

/-- What `main()` in `main.py` prints: on a success Run Result, the summary
(elapsed time, success/total counts, throughput); on an error Run Result,
only the error message. -/
inductive MainOutput where
  | successSummary (elapsed_time : ℚ) (success_count total_symbols : Nat)
      (cryptocurrencies_per_second : ℚ)
  | errorMessage (msg : String)
deriving Repr, DecidableEq

/-- The branch of `main()` on the Run Result's status. -/
def mainOutput (result : RunResult) : MainOutput :=
  match result with
  | .success elapsed total _processed succ metrics =>
      .successSummary elapsed succ total metrics.cryptocurrencies_per_second
  | .error e => .errorMessage e

/-! ## General lemmas -/

theorem dateCheckProcess_length (cfg : Config) (store : Storage)
    (syms : List SymbolRecord) :
    (dateCheckProcess cfg store syms).length = syms.length :=
  List.length_map _ _

theorem datesOf_append (a b : List HistRow) :
    datesOf (a ++ b) = datesOf a ++ datesOf b :=
  List.map_append _ _ _

theorem appendDedup_nodup (rows : List HistRow) : ∀ old : List HistRow,
    (datesOf old).Nodup → (datesOf (appendDedup old rows)).Nodup := by
  induction rows with
  | nil => intro old h; exact h
  | cons r rs ih =>
      intro old h
      have step : appendDedup old (r :: rs) =
          appendDedup (if r.date ∈ datesOf old then old else old ++ [r]) rs := rfl
      rw [step]
      by_cases hmem : r.date ∈ datesOf old
      · rw [if_pos hmem]; exact ih old h
      · rw [if_neg hmem]
        apply ih
        rw [datesOf_append]
        refine List.Nodup.append h (List.nodup_singleton _) ?_
        intro a ha hb
        have : a = r.date := by simpa [datesOf] using hb
        exact hmem (this ▸ ha)

theorem fillStep_processed (fetch : Fetch) (st : FillState) (rec : UpdateNeed) :
    (fillStep fetch st rec).processed_count = st.processed_count + 1 := by
  rcases rec with ⟨sym, nu, mr⟩
  cases nu
  · rfl
  · cases mr with
    | none => rfl
    | some rng => cases hf : fetch sym rng with
      | ok rows => simp [fillStep, hf]
      | error e => simp [fillStep, hf]

theorem fillStep_success (fetch : Fetch) (st : FillState) (rec : UpdateNeed) :
    (fillStep fetch st rec).success_count =
      st.success_count + (if fetchOk fetch rec then 1 else 0) := by
  rcases rec with ⟨sym, nu, mr⟩
  cases nu
  · simp [fillStep, fetchOk]
  · cases mr with
    | none => simp [fillStep, fetchOk]
    | some rng => cases hf : fetch sym rng with
      | ok rows => simp [fillStep, fetchOk, hf]
      | error e => simp [fillStep, fetchOk, hf]

theorem fillStep_error_store (fetch : Fetch) (st : FillState)
    (rec : UpdateNeed) (rng : Int × Int) (e : String)
    (hmr : rec.missingRange = some rng)
    (hf : fetch rec.symbol rng = .error e) :
    (fillStep fetch st rec).store = st.store := by
  rcases rec with ⟨sym, nu, mr⟩
  simp only at hmr hf
  subst hmr
  cases nu
  · rfl
  · simp [fillStep, hf]

theorem fillStep_nodup (fetch : Fetch) (st : FillState) (rec : UpdateNeed)
    (h : ∀ sym, (datesOf (st.store sym)).Nodup) :
    ∀ sym, (datesOf ((fillStep fetch st rec).store sym)).Nodup := by
  rcases rec with ⟨s, nu, mr⟩
  cases nu
  · exact h
  · cases mr with
    | none => exact h
    | some rng =>
        cases hf : fetch s rng with
        | error e => intro sym; simp only [fillStep, hf]; exact h sym
        | ok rows =>
            intro sym
            simp only [fillStep, hf, updateStore]
            by_cases hsym : sym = s
            · rw [if_pos hsym]; exact appendDedup_nodup rows _ (h s)
            · rw [if_neg hsym]; exact h sym

theorem dataFillProcess_nodup (fetch : Fetch) (recs : List UpdateNeed) :
    ∀ st : FillState, (∀ sym, (datesOf (st.store sym)).Nodup) →
      ∀ sym, (datesOf ((dataFillProcess fetch st recs).store sym)).Nodup := by
  induction recs with
  | nil => intro st h; exact h
  | cons r rs ih =>
      intro st h
      exact ih (fillStep fetch st r) (fillStep_nodup fetch st r h)

theorem dataFillProcess_processed (fetch : Fetch) (recs : List UpdateNeed) :
    ∀ st : FillState,
      (dataFillProcess fetch st recs).processed_count =
        st.processed_count + recs.length := by
  induction recs with
  | nil => intro st; rfl
  | cons r rs ih =>
      intro st
      have hstep : dataFillProcess fetch st (r :: rs) =
          dataFillProcess fetch (fillStep fetch st r) rs := rfl
      rw [hstep, ih, fillStep_processed]
      simp [Nat.add_assoc, Nat.add_comm 1 rs.length]

theorem dataFillProcess_success (fetch : Fetch) (recs : List UpdateNeed) :
    ∀ st : FillState,
      (dataFillProcess fetch st recs).success_count =
        st.success_count + recs.countP (fetchOk fetch) := by
  induction recs with
  | nil => intro st; rfl
  | cons r rs ih =>
      intro st
      have hstep : dataFillProcess fetch st (r :: rs) =
          dataFillProcess fetch (fillStep fetch st r) rs := rfl
      rw [hstep, ih, fillStep_success, List.countP_cons]
      by_cases h : fetchOk fetch r <;> simp [h] <;> omega

/-! ## Claims C1–C3 (Date-Check Filter) -/

/-- C1: for every symbol whose stored Historical Series is empty or absent
(malformed storage reads as the empty series), the Date-Check Filter's
process returns an Update-Need Record with `needs_update = true` and
missing-range equal to the full configured global window. -/
theorem dateCheck_empty_full_range (cfg : Config) (store : Storage)
    (syms : List SymbolRecord) (i : Nat) (hi : i < syms.length)
    (hempty : store (syms[i].id) = []) :
    (dateCheckProcess cfg store syms)[i]? =
      some { symbol := syms[i].id, needs_update := true
             missingRange := some (cfg.startDate, cfg.endDate) } := by
  unfold dateCheckProcess
  rw [List.getElem?_map, List.getElem?_eq_getElem hi]
  simp only [Option.map_some']
  unfold checkSymbol latestDate datesOf
  rw [hempty]
  rfl

/-- Witness for C1: a concrete two-symbol run over empty storage. -/
theorem dateCheck_empty_full_range_witness :
    (dateCheckProcess (startupConfig 20000) (fun _ => [])
        [⟨"btc", "Bitcoin", 1⟩, ⟨"eth", "Ethereum", 2⟩])[1]? =
      some { symbol := "eth", needs_update := true
             missingRange := some (16350, 20000) } := by
  have h :=
    dateCheck_empty_full_range (startupConfig 20000) (fun _ => [])
      [⟨"btc", "Bitcoin", 1⟩, ⟨"eth", "Ethereum", 2⟩] 1 (by decide) rfl
  exact h

/-- C2: for every symbol whose stored series is non-empty with latest
stored date strictly before the configured end date, the Date-Check Filter
returns `needs_update = true` with missing-range `[latest + 1, end]`. -/
theorem dateCheck_stale_range (cfg : Config) (store : Storage)
    (syms : List SymbolRecord) (i : Nat) (hi : i < syms.length) (d : Int)
    (hlast : latestDate (store (syms[i].id)) = some d)
    (hlt : d < cfg.endDate) :
    (dateCheckProcess cfg store syms)[i]? =
      some { symbol := syms[i].id, needs_update := true
             missingRange := some (d + 1, cfg.endDate) } := by
  unfold dateCheckProcess
  rw [List.getElem?_map, List.getElem?_eq_getElem hi]
  simp only [Option.map_some']
  unfold checkSymbol
  rw [hlast]
  simp [hlt]

/-- Witness for C2: one symbol whose series ends the day before the end
date. -/
theorem dateCheck_stale_range_witness :
    (dateCheckProcess ⟨100, 200, 100⟩
        (fun _ => [⟨150, 5, 6, 7⟩, ⟨199, 8, 9, 10⟩])
        [⟨"btc", "Bitcoin", 1⟩])[0]? =
      some { symbol := "btc", needs_update := true
             missingRange := some (200, 200) } := by
  have h :=
    dateCheck_stale_range ⟨100, 200, 100⟩
      (fun _ => [⟨150, 5, 6, 7⟩, ⟨199, 8, 9, 10⟩])
      [⟨"btc", "Bitcoin", 1⟩] 0 (by decide) 199 (by decide) (by decide)
  exact h

/-- C3: for every symbol whose stored series' latest date is at or after
the configured end date, the Date-Check Filter returns
`needs_update = false`, regardless of the length of the series. -/
theorem dateCheck_complete_no_update (cfg : Config) (store : Storage)
    (syms : List SymbolRecord) (i : Nat) (hi : i < syms.length) (d : Int)
    (hlast : latestDate (store (syms[i].id)) = some d)
    (hge : cfg.endDate ≤ d) :
    (dateCheckProcess cfg store syms)[i]? =
      some { symbol := syms[i].id, needs_update := false
             missingRange := none } := by
  unfold dateCheckProcess
  rw [List.getElem?_map, List.getElem?_eq_getElem hi]
  simp only [Option.map_some']
  unfold checkSymbol
  rw [hlast]
  simp [not_lt.mpr hge]

/-! ## Claims C4–C5 (Data-Fill Filter) -/

/-- C4: running the Data-Fill Filter twice in succession with the same
upstream data available does not duplicate any date row in any symbol's
Historical Series (appends deduplicate by date), and on the second run the
Date-Check Filter reports `needs_update = false` for every
already-complete symbol. -/
theorem dataFill_idempotent (cfg : Config) (fetch : Fetch) (store : Storage)
    (syms : List SymbolRecord)
    (h : ∀ sym, (datesOf (store sym)).Nodup) :
    (∀ sym, (datesOf ((runOnce cfg fetch store syms).store sym)).Nodup) ∧
    (∀ sym, (datesOf ((runOnce cfg fetch (runOnce cfg fetch store syms).store
        syms).store sym)).Nodup) ∧
    (∀ i : Nat, ∀ hi : i < syms.length,
      seriesComplete cfg (runOnce cfg fetch store syms).store (syms[i].id)
          = true →
      (dateCheckProcess cfg (runOnce cfg fetch store syms).store syms)[i]? =
        some { symbol := syms[i].id, needs_update := false
               missingRange := none }) := by
  have h1 : ∀ sym, (datesOf ((runOnce cfg fetch store syms).store sym)).Nodup :=
    dataFillProcess_nodup fetch _ _ h
  refine ⟨h1, dataFillProcess_nodup fetch _ _ h1, ?_⟩
  intro i hi hcomp
  unfold seriesComplete at hcomp
  unfold dateCheckProcess
  rw [List.getElem?_map, List.getElem?_eq_getElem hi]
  simp only [Option.map_some']
  unfold checkSymbol
  cases hl : latestDate ((runOnce cfg fetch store syms).store (syms[i].id)) with
  | none => rw [hl] at hcomp; exact absurd hcomp (by simp)
  | some d =>
      rw [hl] at hcomp
      have hge : cfg.endDate ≤ d := of_decide_eq_true hcomp
      simp [not_lt.mpr hge]

/-- Witness for C4: one symbol filled from empty storage; the second run's
storage has no duplicate dates and its date check reports no update
needed. -/
theorem dataFill_idempotent_witness :
    (datesOf ((runOnce ⟨0, 2, 100⟩
        (fun _ _ => Except.ok [⟨0, 1, 1, 1⟩, ⟨1, 1, 1, 1⟩, ⟨2, 1, 1, 1⟩])
        (runOnce ⟨0, 2, 100⟩
          (fun _ _ => Except.ok [⟨0, 1, 1, 1⟩, ⟨1, 1, 1, 1⟩, ⟨2, 1, 1, 1⟩])
          (fun _ => []) [⟨"btc", "Bitcoin", 1⟩]).store
        [⟨"btc", "Bitcoin", 1⟩]).store "btc")).Nodup ∧
    (dateCheckProcess ⟨0, 2, 100⟩
        (runOnce ⟨0, 2, 100⟩
          (fun _ _ => Except.ok [⟨0, 1, 1, 1⟩, ⟨1, 1, 1, 1⟩, ⟨2, 1, 1, 1⟩])
          (fun _ => []) [⟨"btc", "Bitcoin", 1⟩]).store
        [⟨"btc", "Bitcoin", 1⟩])[0]? =
      some { symbol := "btc", needs_update := false, missingRange := none } := by
  have h := dataFill_idempotent ⟨0, 2, 100⟩
      (fun _ _ => Except.ok [⟨0, 1, 1, 1⟩, ⟨1, 1, 1, 1⟩, ⟨2, 1, 1, 1⟩])
      (fun _ => []) [⟨"btc", "Bitcoin", 1⟩]
      (fun _ => List.nodup_nil)
  exact ⟨h.2.1 "btc", h.2.2 0 (by decide) (by rfl)⟩

/-- C5: a fetch failure for one symbol in the Data-Fill Filter is
recovered per-item — the failing symbol's stored series is unchanged, the
batch continues, and the pipeline-level status remains success —
`processed_count` equals the number of records examined regardless of
per-item outcomes, and `success_count` counts only completed symbols. -/
theorem dataFill_per_item_recovery (fetch : Fetch) (st : FillState)
    (recs : List UpdateNeed) :
    (dataFillProcess fetch st recs).processed_count =
      st.processed_count + recs.length ∧
    (dataFillProcess fetch st recs).success_count =
      st.success_count + recs.countP (fetchOk fetch) ∧
    (∀ rec : UpdateNeed, ∀ rng e, rec.missingRange = some rng →
      fetch rec.symbol rng = .error e →
      (fillStep fetch st rec).store = st.store ∧
      (fillStep fetch st rec).processed_count = st.processed_count + 1) ∧
    (∀ (syms : List SymbolRecord) (cfg : Config) (store : Storage)
        (elapsed : ℚ),
      statusOf (run_pipe_and_filter (.ok syms)
        (fun s => .ok (dateCheckProcess cfg store s))
        (fun r => .ok (countsOf (dataFillProcess fetch
          { store := store, processed_count := 0, success_count := 0 } r)))
        elapsed) = "success") := by
  refine ⟨dataFillProcess_processed fetch recs st,
    dataFillProcess_success fetch recs st, ?_, ?_⟩
  · intro rec rng e hmr hf
    exact ⟨fillStep_error_store fetch st rec rng e hmr hf,
      fillStep_processed fetch st rec⟩
  · intro syms cfg store elapsed
    rfl

/-- Witness for C5: an always-failing fetch still examines both records
and leaves the stored series unchanged. -/
theorem dataFill_per_item_recovery_witness :
    (dataFillProcess (fun _ _ => Except.error "timeout")
        ⟨fun _ => [], 0, 0⟩
        [⟨"btc", true, some (0, 2)⟩, ⟨"eth", true, some (0, 2)⟩]).processed_count
      = 0 + 2 ∧
    (fillStep (fun _ _ => Except.error "timeout") ⟨fun _ => [], 0, 0⟩
        ⟨"btc", true, some (0, 2)⟩).store =
      (⟨fun _ => [], 0, 0⟩ : FillState).store := by
  have h := dataFill_per_item_recovery (fun _ _ => Except.error "timeout")
      ⟨fun _ => [], 0, 0⟩ [⟨"btc", true, some (0, 2)⟩, ⟨"eth", true, some (0, 2)⟩]
  exact ⟨h.1, (h.2.2.1 ⟨"btc", true, some (0, 2)⟩ (0, 2) "timeout" rfl rfl).1⟩

/-! ## Claim C6 (Symbol Filter) -/

/-- C6: the Symbol Filter never returns more entries than the configured
maximum (default 100), every returned entry has a non-empty identifier and
a numeric rank (it is the image of a raw entry that passed validation),
and invalid entries are dropped without aborting the run. -/
theorem symbolFilter_cap_and_valid (raw : List RawEntry) :
    (raw ≠ [] →
      ∃ res, symbolFilterProcess MAX_CRYPTOCURRENCIES (some raw) = .ok res) ∧
    (∀ res, symbolFilterProcess MAX_CRYPTOCURRENCIES (some raw) = .ok res →
      res.length ≤ MAX_CRYPTOCURRENCIES ∧
      ∀ r ∈ res, r.id ≠ "" ∧
        ∃ e ∈ raw, validEntry e = true ∧ e.rank = some r.rank ∧
          r = toSymbolRecord e) := by
  cases raw with
  | nil =>
      constructor
      · intro hne; exact absurd rfl hne
      · intro res hres; exact absurd hres (by simp [symbolFilterProcess])
  | cons a l =>
      constructor
      · exact fun _ => ⟨_, rfl⟩
      · intro res hres
        simp only [symbolFilterProcess, List.isEmpty_cons, if_false,
          Except.ok.injEq, Bool.false_eq_true] at hres
        subst hres
        constructor
        · calc ((((a :: l).take MAX_CRYPTOCURRENCIES).filter
                validEntry).map toSymbolRecord).length
              = (((a :: l).take MAX_CRYPTOCURRENCIES).filter
                validEntry).length := List.length_map _ _
            _ ≤ ((a :: l).take MAX_CRYPTOCURRENCIES).length :=
                List.length_filter_le _ _
            _ ≤ MAX_CRYPTOCURRENCIES := List.length_take_le _ _
        · intro r hr
          obtain ⟨e, he, rfl⟩ := List.mem_map.mp hr
          obtain ⟨hetake, hvalid⟩ := List.mem_filter.mp he
          have hmem : e ∈ a :: l := List.mem_of_mem_take hetake
          have hv := hvalid
          unfold validEntry at hv
          rw [Bool.and_eq_true] at hv
          obtain ⟨hid, hrank⟩ := hv
          have hid' : e.id ≠ "" := of_decide_eq_true hid
          obtain ⟨v, hv'⟩ := Option.isSome_iff_exists.mp hrank
          refine ⟨hid', e, hmem, hvalid, ?_, rfl⟩
          simp [toSymbolRecord, hv']

/-- Witness for C6: a valid and an invalid raw entry; the result exists
and respects the cap. -/
theorem symbolFilter_cap_and_valid_witness :
    (∃ res, symbolFilterProcess MAX_CRYPTOCURRENCIES
        (some [⟨"btc", "Bitcoin", some 1⟩, ⟨"", "broken", none⟩]) = .ok res) ∧
    ([({ id := "btc", name := "Bitcoin", rank := 1 } : SymbolRecord)]).length ≤
      MAX_CRYPTOCURRENCIES := by
  have h := symbolFilter_cap_and_valid
      [⟨"btc", "Bitcoin", some 1⟩, ⟨"", "broken", none⟩]
  exact ⟨h.1 (by simp),
    (h.2 [{ id := "btc", name := "Bitcoin", rank := 1 }] (by rfl)).1⟩

/-! ## Claims C7–C8, C10 (Orchestrator and entry point, `main.py`) -/

/-- C7: `run_pipe_and_filter` invokes the three filters strictly in
sequence, catches any exception escaping them and returns an error Run
Result carrying that exception's message, and otherwise returns a success
Run Result whose derived metrics satisfy
`efficiency_score = cryptocurrencies_per_second × 1000`. -/
theorem run_pipe_sequence_and_metrics
    (symbolStage : Except String (List SymbolRecord))
    (dateCheckStage : List SymbolRecord → Except String (List UpdateNeed))
    (dataFillStage : List UpdateNeed → Except String FillCounts)
    (elapsed : ℚ) :
    (∀ e, symbolStage = .error e →
      run_pipe_and_filter symbolStage dateCheckStage dataFillStage elapsed =
        .error e) ∧
    (∀ syms e, symbolStage = .ok syms → dateCheckStage syms = .error e →
      run_pipe_and_filter symbolStage dateCheckStage dataFillStage elapsed =
        .error e) ∧
    (∀ syms info e, symbolStage = .ok syms → dateCheckStage syms = .ok info →
      dataFillStage info = .error e →
      run_pipe_and_filter symbolStage dateCheckStage dataFillStage elapsed =
        .error e) ∧
    (∀ syms info result, symbolStage = .ok syms →
      dateCheckStage syms = .ok info → dataFillStage info = .ok result →
      run_pipe_and_filter symbolStage dateCheckStage dataFillStage elapsed =
        .success elapsed syms.length result.processed_count
          result.success_count
          (calculate_performance_metrics elapsed syms.length) ∧
      (calculate_performance_metrics elapsed syms.length).efficiency_score =
        (calculate_performance_metrics elapsed
          syms.length).cryptocurrencies_per_second * 1000) := by
  refine ⟨?_, ?_, ?_, ?_⟩
  · intro e he; subst he; rfl
  · intro syms e hs hd; subst hs; simp [run_pipe_and_filter, hd]
  · intro syms info e hs hd hf; subst hs; simp [run_pipe_and_filter, hd, hf]
  · intro syms info result hs hd hf
    subst hs
    constructor
    · simp [run_pipe_and_filter, hd, hf]
    · unfold calculate_performance_metrics
      by_cases h : elapsed > 0
      · simp [h]
      · simp [h]

/-- Witness for C7: a concrete successful run of all three stages. -/
theorem run_pipe_sequence_and_metrics_witness :
    run_pipe_and_filter (Except.ok [⟨"btc", "Bitcoin", 1⟩])
        (fun _ => Except.ok []) (fun _ => Except.ok ⟨1, 1⟩) 2 =
      RunResult.success 2 1 1 1 (calculate_performance_metrics 2 1) ∧
    (calculate_performance_metrics 2 1).efficiency_score =
      (calculate_performance_metrics 2 1).cryptocurrencies_per_second * 1000 :=
  (run_pipe_sequence_and_metrics (Except.ok [⟨"btc", "Bitcoin", 1⟩])
      (fun _ => Except.ok []) (fun _ => Except.ok ⟨1, 1⟩) 2).2.2.2
    [⟨"btc", "Bitcoin", 1⟩] [] ⟨1, 1⟩ rfl rfl rfl

/-- C8: the entry point exits normally (prints the success summary) when
only per-symbol failures occur; only a pipeline-fatal error — a failed
ranked-entity fetch — switches it to the error path, where the error Run
Result's message is printed without the success summary. -/
theorem main_exit_paths (apiResp : Option (List RawEntry)) (fetch : Fetch)
    (cfg : Config) (store : Storage) (elapsed : ℚ) :
    (∀ syms, symbolFilterProcess cfg.maxCount apiResp = .ok syms →
      mainOutput (pipelineRun apiResp fetch cfg store elapsed) =
        .successSummary elapsed
          (dataFillProcess fetch
            { store := store, processed_count := 0, success_count := 0 }
            (dateCheckProcess cfg store syms)).success_count
          syms.length
          (calculate_performance_metrics elapsed
            syms.length).cryptocurrencies_per_second) ∧
    (∀ e, symbolFilterProcess cfg.maxCount apiResp = .error e →
      mainOutput (pipelineRun apiResp fetch cfg store elapsed) =
        .errorMessage e) := by
  constructor
  · intro syms hs
    unfold pipelineRun run_pipe_and_filter
    rw [hs]
    rfl
  · intro e hs
    unfold pipelineRun run_pipe_and_filter
    rw [hs]
    rfl

/-- Witness for C8: a failing per-symbol fetch still produces the success
summary, while a failed ranked-entity fetch produces only the error
message. -/
theorem main_exit_paths_witness :
    mainOutput (pipelineRun (some [⟨"btc", "Bitcoin", some 1⟩])
        (fun _ _ => Except.error "timeout") ⟨0, 2, 100⟩ (fun _ => []) 1) =
      MainOutput.successSummary 1
        (dataFillProcess (fun _ _ => Except.error "timeout")
          { store := fun _ => [], processed_count := 0, success_count := 0 }
          (dateCheckProcess ⟨0, 2, 100⟩ (fun _ => [])
            [{ id := "btc", name := "Bitcoin", rank := 1 }])).success_count
        1
        (calculate_performance_metrics 1 1).cryptocurrencies_per_second ∧
    mainOutput (pipelineRun none (fun _ _ => Except.error "timeout")
        ⟨0, 2, 100⟩ (fun _ => []) 1) = .errorMessage "DataUnavailableError" := by
  constructor
  · exact (main_exit_paths (some [⟨"btc", "Bitcoin", some 1⟩])
      (fun _ _ => Except.error "timeout") ⟨0, 2, 100⟩ (fun _ => []) 1).1
      [{ id := "btc", name := "Bitcoin", rank := 1 }] rfl
  · exact (main_exit_paths none (fun _ _ => Except.error "timeout")
      ⟨0, 2, 100⟩ (fun _ => []) 1).2 "DataUnavailableError" rfl

/-! ## Claim C9 (startup configuration, `config.py`) -/

/-- C9: the configured global start date is the current date minus the
lookback window in years (default 10, a year being 365 days as in the
source), the global end date is the current date, and runs on different
days produce different global windows (rolling window). -/
theorem config_rolling_window (now : Int) :
    startupConfig now =
      { startDate := now - (HISTORICAL_YEARS : Int) * 365, endDate := now
        maxCount := MAX_CRYPTOCURRENCIES } ∧
    HISTORICAL_YEARS = 10 ∧
    (∀ other : Int, other ≠ now → startupConfig other ≠ startupConfig now) := by
  refine ⟨rfl, rfl, ?_⟩
  intro other hne heq
  exact hne (congrArg Config.endDate heq)

/-- Witness for C9: the window on day 20000 versus day 19999. -/
theorem config_rolling_window_witness :
    startupConfig 20000 =
      { startDate := 20000 - (HISTORICAL_YEARS : Int) * 365, endDate := 20000
        maxCount := MAX_CRYPTOCURRENCIES } ∧
    startupConfig 19999 ≠ startupConfig 20000 :=
  ⟨(config_rolling_window 20000).1,
    (config_rolling_window 20000).2.2 19999 (by decide)⟩

/-- C10: with zero measured elapsed time, the success Run Result's
`cryptocurrencies_per_second` and `efficiency_score` metrics are both 0
rather than a division-by-zero error, the division being guarded by the
`elapsed_time > 0` check of `_calculate_performance_metrics`. -/
theorem metrics_zero_elapsed_guard (total_symbols : Nat) :
    (calculate_performance_metrics 0 total_symbols).cryptocurrencies_per_second
      = 0 ∧
    (calculate_performance_metrics 0 total_symbols).efficiency_score = 0 := by
  constructor <;> simp [calculate_performance_metrics]

/-- Witness for C3: a one-row series already reaching past the end date. -/
theorem dateCheck_complete_no_update_witness :
    (dateCheckProcess ⟨100, 200, 100⟩ (fun _ => [⟨205, 1, 2, 3⟩])
        [⟨"btc", "Bitcoin", 1⟩])[0]? =
      some { symbol := "btc", needs_update := false, missingRange := none } := by
  have h :=
    dateCheck_complete_no_update ⟨100, 200, 100⟩ (fun _ => [⟨205, 1, 2, 3⟩])
      [⟨"btc", "Bitcoin", 1⟩] 0 (by decide) 205 (by decide) (by decide)
  exact h

end CryptoExchange
